import Mathlib

/-!
Verification of the AutoCertify batch certificate pipeline (`app.py`).

The embedding models Python strings as `List Char`, pandas cell values as
`PyVal`, the pptx presentation tree as nested lists of styled text runs,
and the Streamlit batch loop as a small state machine over an associative
file store, parameterised by oracles for the two external services
(PowerPoint rendering, SMTP delivery).
-/

namespace AutoCertify

/-! ## Definitions: the embedding of `app.py` -/

/-- Python strings are modelled as lists of characters. -/
abbrev Str := List Char

/-- The opening curly brace character (written via an escape). -/
def braceL : Char := '\x7b'

/-- The closing curly brace character (written via an escape). -/
def braceR : Char := '\x7d'

/-- Scalar cell values of a roster row, as produced by `pandas.read_csv`
followed by `row.to_dict()`: a string, a number, `NaN` (what pandas stores
for an empty cell), or Python `None` (what `dict.get` returns for an
absent key). -/
inductive PyVal where
  | pstr (s : Str)
  | pnum (n : Int)
  | pnan
  | pnone
deriving DecidableEq, Repr

/-- Python truthiness of a cell value.  Note that the float `NaN` is
truthy in Python (`bool(float("nan")) == True`), while `None` and the
empty string are falsy. -/
def truthy : PyVal → Bool
  | .pstr s => !s.isEmpty
  | .pnum n => n != 0
  | .pnan => true
  | .pnone => false

/-- `pd.isna` on a cell value. -/
def pd_isna : PyVal → Bool
  | .pnan => true
  | .pnone => true
  | _ => false

/-- Python `str()` of a cell value. -/
def pyStr : PyVal → Str
  | .pstr s => s
  | .pnum n => (toString n).data
  | .pnan => "nan".data
  | .pnone => "None".data

/-- `"" if pd.isna(value) else str(value)` — the replacement text used by
`fill_ppt`. -/
def renderCell (v : PyVal) : Str := if pd_isna v then [] else pyStr v

/-- The placeholder literal built in `fill_ppt`:
`f"\x7b\x7b\x7b\x7b\x7bkey\x7d\x7d\x7d\x7d\x7d"`, i.e. two opening braces,
the key, two closing braces. -/
def placeholder (k : Str) : Str := braceL :: braceL :: (k ++ [braceR, braceR])

/-- Python's substring test `pat in s`. -/
def containsSub (pat : Str) : Str → Bool
  | [] => pat.isEmpty
  | c :: rest => pat.isPrefixOf (c :: rest) || containsSub pat rest

/-- Fuel-indexed core of Python `str.replace`: scan left to right, replace
each non-overlapping occurrence of `pat`, never rescanning the replacement
text.  The fuel (one unit per consumed character) keeps the recursion
structural so that the kernel can evaluate it. -/
def replaceAllAux (pat rep : Str) : Nat → Str → Str
  | _, [] => []
  | 0, s => s
  | fuel + 1, c :: rest =>
    if pat ≠ [] ∧ pat.isPrefixOf (c :: rest) then
      rep ++ replaceAllAux pat rep fuel (rest.drop (pat.length - 1))
    else
      c :: replaceAllAux pat rep fuel rest

/-- Python `s.replace(pat, rep)` for a non-empty pattern (all patterns in
the source are non-empty). -/
def replaceAll (pat rep s : Str) : Str := replaceAllAux pat rep s.length s

/-- A roster row: the insertion-ordered `dict` produced by
`row.to_dict()`. -/
abbrev Row := List (Str × PyVal)

/-- The inner loop of `fill_ppt` on one run's text: for each `(key, value)`
of the row, in order, if the placeholder occurs in the current text,
replace every occurrence by the rendered value. -/
def fillRun (data : Row) (t : Str) : Str :=
  data.foldl (fun acc kv =>
    let ph := placeholder kv.1
    if containsSub ph acc then replaceAll ph (renderCell kv.2) acc else acc) t

/-- A styled text run.  The style is opaque: `fill_ppt` only ever assigns
`run.text`, so one abstract style tag suffices. -/
structure Run where
  text : Str
  style : Nat
deriving DecidableEq, Repr

/-- A paragraph is a list of runs. -/
structure Paragraph where
  runs : List Run
deriving DecidableEq, Repr

/-- A shape: `fill_ppt` skips shapes without a text frame. -/
structure Shape where
  hasTextFrame : Bool
  paragraphs : List Paragraph
deriving DecidableEq, Repr

/-- A slide is a list of shapes. -/
structure Slide where
  shapes : List Shape
deriving DecidableEq, Repr

/-- A presentation (deck) is a list of slides. -/
structure Pres where
  slides : List Slide
deriving DecidableEq, Repr

/-- `fill_ppt` on one shape: shapes without a text frame are skipped. -/
def fillShape (data : Row) (sh : Shape) : Shape :=
  if sh.hasTextFrame then
    { sh with paragraphs := sh.paragraphs.map (fun pa =>
        { runs := pa.runs.map (fun r => { r with text := fillRun data r.text }) }) }
  else sh

/-- The pure core of `fill_ppt`: substitute the row into every run of
every paragraph of every text-bearing shape of every slide. -/
def fillPres (data : Row) (p : Pres) : Pres :=
  { slides := p.slides.map (fun sl => { shapes := sl.shapes.map (fillShape data) }) }

/-- A token of a run's text: a literal chunk or a placeholder. -/
inductive Tok where
  | lit (s : Str)
  | ph (k : Str)
deriving DecidableEq, Repr

/-- The text of one token. -/
def tokStr : Tok → Str
  | .lit s => s
  | .ph k => placeholder k

/-- The text of a token list. -/
def tokText : List Tok → Str
  | [] => []
  | t :: ts => tokStr t ++ tokText ts

/-- A string without any brace character. -/
def braceFree (s : Str) : Bool := s.all (fun c => !(c == braceL) && !(c == braceR))

/-- A well-formed token: its literal or key is brace-free. -/
def wfTok : Tok → Bool
  | .lit s => braceFree s
  | .ph k => braceFree k

/-- A well-formed token list. -/
def wfToks (ts : List Tok) : Bool := ts.all wfTok

/-- Replacing one key's placeholder at the token level. -/
def replTok (k rep : Str) : Tok → Tok
  | .lit s => .lit s
  | .ph k' => if k' == k then .lit rep else .ph k'

/-- Substituting a whole row at the token level: each placeholder whose
key is a column of the row becomes the rendered cell value; every other
token is unchanged. -/
def substTok (data : Row) : Tok → Tok
  | .lit s => .lit s
  | .ph k =>
    match List.lookup k data with
    | some v => .lit (renderCell v)
    | none => .ph k

/-- Modelled from the spec's wording of component 4.1 (not from the code):
one left-to-right scan of the run's text; at each position, if some row
column's placeholder starts there, emit the rendered value and skip the
placeholder; replacement text is never rescanned. -/
def specFillRunAux (data : Row) : Nat → Str → Str
  | _, [] => []
  | 0, s => s
  | fuel + 1, c :: rest =>
    match data.find? (fun kv => (placeholder kv.1).isPrefixOf (c :: rest)) with
    | some kv => renderCell kv.2 ++ specFillRunAux data fuel (rest.drop ((placeholder kv.1).length - 1))
    | none => c :: specFillRunAux data fuel rest

/-- Modelled from the spec: the substitution contract of 4.1 as written,
used only to compare the code's sequential per-column replacement against
the spec's single-scan description. -/
def specFillRun (data : Row) (t : Str) : Str := specFillRunAux data t.length t

/-- The message that `send_email` composes and hands to the SMTP
transport.  The HTML alternative always contains the `cid:` inline-image
reference (it is built before the attachment check); the image itself is
attached only when the attachment list is non-empty. -/
structure EmailMsg where
  sender : Str
  recipient : PyVal
  subject : Str
  body : Str
  htmlName : Str
  htmlHasCidRef : Bool
  inline : Option Str
  attachName : Str
deriving DecidableEq, Repr

/-- `send_email` from `app.py`: compose the message (plain-text body plus
HTML alternative), attach the first image inline when the attachment list
is non-empty, then submit over SMTP.  The returned record is the message
submitted to the transport; the function models the composition, the
transport submission itself is unconditional in the source. -/
def send_email (sender _password : Str) (recipient : PyVal) (subject body : Str)
    (attachments : List Str) (name : PyVal) (event_name : Str) : EmailMsg :=
  { sender := sender
    recipient := recipient
    subject := subject
    body := body
    htmlName := pyStr name
    htmlHasCidRef := true
    inline := attachments.head?
    attachName := event_name ++ ".png".data }

/-- Batch configuration: the UI inputs plus oracles for the two external
services.  `renderOk i` is whether the PowerPoint COM render succeeds for
row `i`; `sendOk i` is whether the SMTP delivery succeeds for row `i`. -/
structure BatchCfg where
  eventName : Str
  sender : Str
  password : Str
  emailCol : Str
  tmpl : Pres
  renderOk : Nat → Bool
  sendOk : Nat → Bool

/-- The name of the template file written once into the temp directory. -/
def templateFile : Str := "template.pptx".data

/-- `str(data.get("NAME", f"user_\x7bidx\x7d")).replace(" ", "_")`. -/
def rowName (idx : Nat) (row : Row) : Str :=
  replaceAll [' '] ['_']
    (match List.lookup ("NAME".data) row with
     | some v => pyStr v
     | none => "user_".data ++ (Nat.repr idx).data)

/-- Per-row record of what the loop produced for one roster row (appended
at the end of the row's iteration). -/
structure RowRecord where
  idx : Nat
  name : Str
  fillInput : Pres
  deckPath : Str
  outDir : Str
  images : List Str
  dispatched : Option EmailMsg
deriving DecidableEq, Repr

/-- The mutable state of the batch loop: the pptx files in the temp
directory (an association list; a new binding shadows an older one, which
models overwriting), the `sent_count`, and the per-row records so far. -/
structure BatchState where
  fs : List (Str × Pres)
  sent : Nat
  results : List RowRecord
deriving DecidableEq, Repr

/-- The uncaught exceptions that can escape a row's processing. -/
inductive BatchErr where
  | templateMissing
  | renderError
  | deliveryError
deriving DecidableEq, Repr

/-- Result of one row: either the next state, or the exception that
escaped (with the state at that moment). -/
inductive RowOut where
  | ok (st : BatchState)
  | fail (e : BatchErr) (st : BatchState)
deriving Repr

/-- Outcome of the whole batch: the source loop has no try/except, so an
exception in any row aborts the run. -/
inductive BatchOutcome where
  | completed (st : BatchState)
  | aborted (atRow : Nat) (e : BatchErr) (st : BatchState)
deriving Repr

/-- `fill_ppt(template_path, output_ppt, data)` at the file level: parse
the deck at `template_path` (raising if the file is absent), substitute
the row, save to `output_ppt`.  Returns the deck that was read (for
bookkeeping) and the updated file store. -/
def fill_ppt (template_path output_ppt : Str) (data : Row)
    (fs : List (Str × Pres)) : Option (Pres × List (Str × Pres)) :=
  match List.lookup template_path fs with
  | none => none
  | some prs => some (prs, (output_ppt, fillPres data prs) :: fs)

/-- `ppt_to_images(ppt_path, output_folder)`: raises `FileNotFoundError`
if the deck is absent, then delegates to the external PowerPoint service
(the `serviceOk` oracle).  Modelled from the spec for the external part:
one image per slide, deterministically named by slide index. -/
def renderImages (deck : Pres) (dir : Str) : List Str :=
  (List.range deck.slides.length).map
    (fun i => dir ++ "/Slide".data ++ (Nat.repr (i + 1)).data ++ ".PNG".data)

/-- `ppt_to_images` as used by the loop. -/
def ppt_to_images (ppt_path outDir : Str) (fs : List (Str × Pres))
    (serviceOk : Bool) : Option (List Str) :=
  match List.lookup ppt_path fs with
  | none => none
  | some deck => if serviceOk then some (renderImages deck outDir) else none

/-- The base output directory `output/<event_name with spaces replaced>`. -/
def baseOut (cfg : BatchCfg) : Str :=
  "output/".data ++ replaceAll [' '] ['_'] cfg.eventName

/-- One iteration of the batch loop body (lines 160-190 of `app.py`). -/
def rowStep (cfg : BatchCfg) (idx : Nat) (row : Row) (st : BatchState) : RowOut :=
  let name := rowName idx row
  let deckPath := name ++ ".pptx".data
  let outDir := baseOut cfg ++ "/".data ++ name
  match fill_ppt templateFile deckPath row st.fs with
  | none => .fail .templateMissing st
  | some (tmplNow, fs1) =>
    let st1 : BatchState := { st with fs := fs1 }
    match ppt_to_images deckPath outDir fs1 (cfg.renderOk idx) with
    | none => .fail .renderError st1
    | some images =>
      let recipient := (List.lookup cfg.emailCol row).getD .pnone
      if truthy recipient then
        if cfg.sendOk idx then
          let msg := send_email cfg.sender cfg.password recipient
            (cfg.eventName ++ " Certificate".data)
            ("Dear ".data ++ pyStr ((List.lookup ("NAME".data) row).getD .pnone) ++
              ",\n\nPlease find your certificate.".data)
            images ((List.lookup ("NAME".data) row).getD .pnone) cfg.eventName
          .ok { st1 with
                sent := st1.sent + 1
                results := st1.results ++
                  [⟨idx, name, tmplNow, deckPath, outDir, images, some msg⟩] }
        else .fail .deliveryError st1
      else
        .ok { st1 with
              results := st1.results ++
                [⟨idx, name, tmplNow, deckPath, outDir, images, none⟩] }

/-- The batch loop: rows in order, indices from 0; the first uncaught
exception aborts the whole run. -/
def runBatchGo (cfg : BatchCfg) : List Row → Nat → BatchState → BatchOutcome
  | [], _, st => .completed st
  | row :: rest, idx, st =>
    match rowStep cfg idx row st with
    | .ok st' => runBatchGo cfg rest (idx + 1) st'
    | .fail e st' => .aborted idx e st'

/-- Initial state: the uploaded template bytes written to the temp
directory, `sent_count = 0`, no rows processed. -/
def initState (cfg : BatchCfg) : BatchState :=
  { fs := [(templateFile, cfg.tmpl)], sent := 0, results := [] }

/-- The whole "Generate & Send Certificates" handler, after input
validation. -/
def runBatch (cfg : BatchCfg) (rows : List Row) : BatchOutcome :=
  runBatchGo cfg rows 0 (initState cfg)

/-- The per-row records present at the end of the run (complete or not). -/
def resultsOf : BatchOutcome → List RowRecord
  | .completed st => st.results
  | .aborted _ _ st => st.results

/-- The final `sent_count`. -/
def sentOf : BatchOutcome → Nat
  | .completed st => st.sent
  | .aborted _ _ st => st.sent

/-- Whether the loop ran to completion. -/
def isCompleted : BatchOutcome → Bool
  | .completed _ => true
  | .aborted _ _ _ => false

/-- Where and how the batch aborted, if it did. -/
def abortedInfo : BatchOutcome → Option (Nat × BatchErr)
  | .completed _ => none
  | .aborted i e _ => some (i, e)

/-- The index, sanitized name, deck path, and output directory of a row
record — the parts that depend only on the row and its index. -/
def projRec (r : RowRecord) : Nat × Str × Str × Str := (r.idx, r.name, r.deckPath, r.outDir)

/-- The projections the loop produces for each row, computed directly. -/
def projRecs (cfg : BatchCfg) : Nat → List Row → List (Nat × Str × Str × Str)
  | _, [] => []
  | idx, row :: rest =>
    (idx, rowName idx row, rowName idx row ++ ".pptx".data,
      baseOut cfg ++ "/".data ++ rowName idx row) :: projRecs cfg (idx + 1) rest

/-- Everything about a presentation except run text: shape flags, run
counts, ordering, and styling. -/
def styleSkeleton (p : Pres) : List (List (Bool × List (List Nat))) :=
  p.slides.map (fun sl => sl.shapes.map (fun sh =>
    (sh.hasTextFrame, sh.paragraphs.map (fun pa => pa.runs.map Run.style))))

/-- The run at position (slide, shape, paragraph, run). -/
def runAt (p : Pres) (i j kk l : Nat) : Option Run :=
  (p.slides[i]?).bind fun sl =>
    (sl.shapes[j]?).bind fun sh =>
      (sh.paragraphs[kk]?).bind fun pa => pa.runs[l]?

/-- Concrete inputs for claim C1: a 2-row roster whose row 0 fails to
render. -/
def c1Tmpl : Pres :=
  ⟨[⟨[⟨true, [⟨[⟨"Hi \x7b\x7bNAME\x7d\x7d".data, 0⟩]⟩]⟩]⟩]⟩

def c1Cfg : BatchCfg :=
  ⟨"Ev".data, "s@x".data, "pw".data, "EMAIL".data, c1Tmpl, fun i => !(i == 0), fun _ => true⟩

def c1Rows : List Row :=
  [[("NAME".data, .pstr "A".data)], [("NAME".data, .pstr "B".data)]]

def c2Tmpl : Pres :=
  ⟨[⟨[⟨true, [⟨[⟨"Hi \x7b\x7bNAME\x7d\x7d".data, 0⟩]⟩]⟩]⟩]⟩

def c2Cfg : BatchCfg :=
  ⟨"Ev".data, "s@x".data, "pw".data, "EMAIL".data, c2Tmpl, fun _ => true, fun _ => true⟩

def c2Rows : List Row :=
  [[("NAME".data, .pstr "A".data), ("EMAIL".data, .pstr "a@x".data)],
   [("NAME".data, .pstr "B".data), ("EMAIL".data, .pnan)],
   [("NAME".data, .pstr "C".data), ("EMAIL".data, .pstr "c@x".data)]]

def c3CexRow : Row :=
  [("A".data, .pstr ("\x7b\x7bB\x7d\x7d".data)), ("B".data, .pstr "x".data)]

def c3CexText : Str := "\x7b\x7bA\x7d\x7d".data

def c3ScenToks : List Tok :=
  [.lit ("Congrats ".data), .ph ("NAME".data), .lit (" from ".data), .ph ("TEAM".data)]

def c3ScenRow : Row :=
  [("NAME".data, .pstr "Ada".data), ("TEAM".data, .pstr "Core".data)]

def c4wPres : Pres := ⟨[⟨[⟨true, [⟨[⟨"Hello".data, 7⟩]⟩]⟩]⟩]⟩

def c4wRow : Row := [("NAME".data, .pstr "Ada".data)]

def c5Row : Row := [("NAME".data, .pstr "Ada".data)]

def c5R1 : Str := "\x7b\x7bNA".data

def c5R2 : Str := "ME\x7d\x7d".data

def c6wTmpl : Pres :=
  ⟨[⟨[⟨true, [⟨[⟨"Hi \x7b\x7bNAME\x7d\x7d".data, 0⟩]⟩]⟩]⟩]⟩

def c6wCfg : BatchCfg :=
  ⟨"Ev".data, "s".data, "p".data, "EMAIL".data, c6wTmpl, fun _ => true, fun _ => true⟩

def c6wRows : List Row :=
  [[("NAME".data, .pstr "Ada".data), ("Mail".data, .pstr "a@x".data)],
   [("NAME".data, .pstr "Bob".data), ("Mail".data, .pstr "b@x".data)]]

def c7wPres : Pres := ⟨[⟨[⟨true, [⟨[⟨"Hi \x7b\x7bNAME\x7d\x7d".data, 3⟩]⟩]⟩]⟩]⟩

def c7wRow : Row := [("NAME".data, .pstr "Ada".data)]

/-- Concrete inputs for claim C8's counterexample: row 0's NAME is
`template`. -/
def c8Tmpl : Pres := ⟨[⟨[⟨true, [⟨[⟨"\x7b\x7bX\x7d\x7d".data, 0⟩]⟩]⟩]⟩]⟩

def c8Cfg : BatchCfg :=
  ⟨"Ev".data, "s".data, "p".data, "EMAIL".data, c8Tmpl, fun _ => true, fun _ => true⟩

def c8Rows : List Row :=
  [[("NAME".data, .pstr "template".data), ("X".data, .pstr "boo".data)],
   [("NAME".data, .pstr "Bob".data)]]

def c8FilledTmpl : Pres := ⟨[⟨[⟨true, [⟨[⟨"boo".data, 0⟩]⟩]⟩]⟩]⟩

def c8wTmpl : Pres := ⟨[⟨[⟨true, [⟨[⟨"Hi \x7b\x7bNAME\x7d\x7d".data, 0⟩]⟩]⟩]⟩]⟩

def c8wCfg : BatchCfg :=
  ⟨"Ev".data, "s".data, "p".data, "EMAIL".data, c8wTmpl, fun _ => true, fun _ => true⟩

def c8wRows : List Row := [[("NAME".data, .pstr "Ada".data)]]

def c8wRec : RowRecord :=
  ⟨0, "Ada".data, c8wTmpl, "Ada.pptx".data, "output/Ev/Ada".data,
    ["output/Ev/Ada/Slide1.PNG".data], none⟩

def c10wTmpl : Pres := ⟨[⟨[⟨true, [⟨[⟨"Hi \x7b\x7bTEAM\x7d\x7d".data, 0⟩]⟩]⟩]⟩]⟩

def c10wCfg : BatchCfg :=
  ⟨"Ev".data, "s".data, "p".data, "EMAIL".data, c10wTmpl, fun _ => true, fun _ => true⟩

def c10wRows : List Row := [[("TEAM".data, .pstr "Core".data)]]

/-! ## Theorems -/

theorem replaceAllAux_fuel (pat rep : Str) :
    ∀ f₁ f₂ s, s.length ≤ f₁ → s.length ≤ f₂ →
      replaceAllAux pat rep f₁ s = replaceAllAux pat rep f₂ s := by
  intro f₁
  induction f₁ with
  | zero =>
    intro f₂ s h₁ _
    have hs : s = [] := List.eq_nil_of_length_eq_zero (Nat.le_zero.mp h₁)
    subst hs
    cases f₂ <;> rfl
  | succ f ih =>
    intro f₂ s h₁ h₂
    cases s with
    | nil => cases f₂ <;> rfl
    | cons c rest =>
      cases f₂ with
      | zero => exact absurd h₂ (by simp)
      | succ f₂' =>
        simp only [replaceAllAux]
        by_cases h : pat ≠ [] ∧ pat.isPrefixOf (c :: rest)
        · rw [if_pos h, if_pos h]
          have hd : (rest.drop (pat.length - 1)).length ≤ f := by
            have := List.length_drop (pat.length - 1) rest
            have h1 : rest.length ≤ f := by simpa using h₁
            omega
          have hd₂ : (rest.drop (pat.length - 1)).length ≤ f₂' := by
            have := List.length_drop (pat.length - 1) rest
            have h2 : rest.length ≤ f₂' := by simpa using h₂
            omega
          rw [ih _ _ hd hd₂]
        · rw [if_neg h, if_neg h]
          have h1 : rest.length ≤ f := by simpa using h₁
          have h2 : rest.length ≤ f₂' := by simpa using h₂
          rw [ih _ _ h1 h2]

theorem replaceAll_nil (pat rep : Str) : replaceAll pat rep [] = [] := rfl

theorem replaceAll_cons (pat rep : Str) (c : Char) (rest : Str) :
    replaceAll pat rep (c :: rest) =
      if pat ≠ [] ∧ pat.isPrefixOf (c :: rest) then
        rep ++ replaceAll pat rep (rest.drop (pat.length - 1))
      else
        c :: replaceAll pat rep rest := by
  show replaceAllAux pat rep (rest.length + 1) (c :: rest) = _
  simp only [replaceAllAux]
  by_cases h : pat ≠ [] ∧ pat.isPrefixOf (c :: rest)
  · rw [if_pos h, if_pos h]
    have := List.length_drop (pat.length - 1) rest
    rw [replaceAllAux_fuel pat rep rest.length (rest.drop (pat.length - 1)).length
      (rest.drop (pat.length - 1)) (by omega) (by omega)]
    rfl
  · rw [if_neg h, if_neg h]; rfl

theorem replaceAll_of_not_contains (pat rep : Str) :
    ∀ s, containsSub pat s = false → replaceAll pat rep s = s := by
  intro s
  induction s with
  | nil => intro _; rfl
  | cons c rest ih =>
    intro h
    simp only [containsSub, Bool.or_eq_false_iff] at h
    rw [replaceAll_cons, if_neg (by simp [h.1]), ih h.2]

/-- With the guard removed: `fillRun` is the plain fold of unconditional
replacements (the guard only skips replacements that would be no-ops). -/
theorem fillRun_eq_fold (data : Row) (t : Str) :
    fillRun data t =
      data.foldl (fun acc kv => replaceAll (placeholder kv.1) (renderCell kv.2) acc) t := by
  unfold fillRun
  induction data generalizing t with
  | nil => rfl
  | cons kv rest ih =>
    simp only [List.foldl_cons]
    by_cases h : containsSub (placeholder kv.1) t = true
    · rw [if_pos h]; exact ih _
    · rw [if_neg h, replaceAll_of_not_contains _ _ _ (Bool.eq_false_iff.mpr h)]
      exact ih _

/-- A run containing no placeholder of any row column is left unchanged. -/
theorem fillRun_id_of_not_contains (data : Row) (t : Str)
    (h : ∀ kv ∈ data, containsSub (placeholder kv.1) t = false) :
    fillRun data t = t := by
  unfold fillRun
  induction data with
  | nil => rfl
  | cons kv rest ih =>
    simp only [List.foldl_cons]
    rw [if_neg (by simp [h kv (by simp)])]
    exact ih (fun kv' h' => h kv' (by simp [h']))

theorem braceFree_mem {s : Str} {c : Char} (h : braceFree s = true) (hc : c ∈ s) :
    ¬ c = braceL ∧ ¬ c = braceR := by
  simp only [braceFree, List.all_eq_true] at h
  have := h c hc
  simp only [Bool.and_eq_true, Bool.not_eq_true'] at this
  exact ⟨by simpa using beq_eq_false_iff_ne.mp this.1,
         by simpa using beq_eq_false_iff_ne.mp this.2⟩

theorem isPrefixOf_false_of_head {a b : Char} (as bs : List Char) (h : ¬ a = b) :
    (a :: as).isPrefixOf (b :: bs) = false := by
  simp only [List.isPrefixOf, Bool.and_eq_false_iff]
  exact Or.inl (beq_eq_false_iff_ne.mpr h)

theorem isPrefixOf_self_append (l T : Str) : l.isPrefixOf (l ++ T) = true := by
  rw [List.isPrefixOf_iff_prefix]; exact List.prefix_append l T

/-- Skipping a chunk with no opening brace: the scanner never finds the
pattern starting inside it. -/
theorem replaceAll_append_bfreeL (pat' rep : Str) :
    ∀ s T : Str, (∀ c ∈ s, ¬ c = braceL) →
      replaceAll (braceL :: pat') rep (s ++ T) = s ++ replaceAll (braceL :: pat') rep T := by
  intro s
  induction s with
  | nil => intro T _; rfl
  | cons c s' ih =>
    intro T hs
    have hc : ¬ braceL = c := fun h => hs c (by simp) h.symm
    rw [List.cons_append, replaceAll_cons,
      if_neg (by simp [isPrefixOf_false_of_head _ _ hc]), ih T (fun c hc => hs c (by simp [hc]))]
    rfl

/-- Two distinct brace-free keys followed by the closing braces never
match each other. -/
theorem isPrefixOf_keys_false (xs ys : Str) :
    ∀ k k' : Str, braceFree k = true → braceFree k' = true → ¬ k = k' →
      (k ++ braceR :: braceR :: xs).isPrefixOf (k' ++ braceR :: braceR :: ys) = false := by
  intro k
  induction k with
  | nil =>
    intro k' _ hk' hne
    cases k' with
    | nil => exact absurd rfl hne
    | cons c' t' =>
      have : ¬ braceR = c' := fun h => (braceFree_mem hk' (by simp)).2 h.symm
      simpa using isPrefixOf_false_of_head _ _ this
  | cons c t ih =>
    intro k' hk hk' hne
    cases k' with
    | nil =>
      have : ¬ c = braceR := (braceFree_mem hk (by simp)).2
      simpa using isPrefixOf_false_of_head _ _ this
    | cons c' t' =>
      by_cases hcc : c = c'
      · subst hcc
        have ht : braceFree t = true := by
          simp only [braceFree, List.all_cons, Bool.and_eq_true] at hk
          exact hk.2
        have ht' : braceFree t' = true := by
          simp only [braceFree, List.all_cons, Bool.and_eq_true] at hk'
          exact hk'.2
        have hne' : ¬ t = t' := fun h => hne (by rw [h])
        simp only [List.cons_append, List.isPrefixOf, beq_self_eq_true, Bool.true_and]
        exact ih t' ht ht' hne'
      · simpa using isPrefixOf_false_of_head _ _ hcc

/-- The pattern `placeholder k` never matches starting at a brace-free
chunk followed by a closing brace. -/
theorem isPrefixOf_bl_false (u v w : Str) (hv : braceFree v = true) :
    (braceL :: u).isPrefixOf (v ++ braceR :: w) = false := by
  cases v with
  | nil =>
    have : ¬ braceL = braceR := by decide
    simpa using isPrefixOf_false_of_head _ _ this
  | cons c' t' =>
    have : ¬ braceL = c' := fun h => (braceFree_mem hv (by simp)).1 h.symm
    simpa using isPrefixOf_false_of_head _ _ this

/-- One full pass of `str.replace` for one key over well-formed token
text replaces exactly the matching placeholder tokens. -/
theorem replaceAll_tokText (k rep : Str) (hk : braceFree k = true) :
    ∀ ts : List Tok, wfToks ts = true →
      replaceAll (placeholder k) rep (tokText ts) = tokText (ts.map (replTok k rep)) := by
  intro ts
  induction ts with
  | nil => intro _; rfl
  | cons t0 rest ih =>
    intro hts
    have hwf : wfTok t0 = true ∧ wfToks rest = true := by
      simpa [wfToks, List.all_cons] using hts
    cases t0 with
    | lit s =>
      have hs : ∀ c ∈ s, ¬ c = braceL := fun c hc => (braceFree_mem hwf.1 hc).1
      show replaceAll (braceL :: (braceL :: (k ++ [braceR, braceR]))) rep (s ++ tokText rest) = _
      rw [replaceAll_append_bfreeL _ _ _ _ hs]
      show s ++ replaceAll (placeholder k) rep (tokText rest) = _
      rw [ih hwf.2]
      rfl
    | ph k' =>
      have hk' : braceFree k' = true := hwf.1
      by_cases hkk : k' = k
      · subst hkk
        show replaceAll (placeholder k') rep (placeholder k' ++ tokText rest) = _
        have hcons : placeholder k' ++ tokText rest =
            braceL :: ((braceL :: (k' ++ [braceR, braceR])) ++ tokText rest) := by
          simp [placeholder]
        rw [hcons, replaceAll_cons, if_pos
          (by
            constructor
            · simp [placeholder]
            · rw [← hcons]
              exact isPrefixOf_self_append _ _)]
        have hdroplen : (placeholder k').length - 1 =
            (braceL :: (k' ++ [braceR, braceR])).length := by
          simp [placeholder]
        rw [hdroplen, List.drop_left, ih hwf.2]
        simp [tokText, tokStr, replTok]
      · show replaceAll (placeholder k) rep (placeholder k' ++ tokText rest) = _
        have hshape : placeholder k' ++ tokText rest =
            braceL :: braceL :: (k' ++ braceR :: braceR :: tokText rest) := by
          simp [placeholder]
        rw [hshape, replaceAll_cons]
        rw [if_neg (by
          intro hand
          have := hand.2
          have hfalse : (placeholder k).isPrefixOf
              (braceL :: braceL :: (k' ++ braceR :: braceR :: tokText rest)) = false := by
            simp only [placeholder, List.isPrefixOf, beq_self_eq_true, Bool.true_and]
            have := isPrefixOf_keys_false [] (tokText rest) k k' hk hk'
              (fun h => hkk (h.symm))
            simpa using this
          rw [hfalse] at this
          exact Bool.false_ne_true this)]
        rw [replaceAll_cons]
        rw [if_neg (by
          intro hand
          have := hand.2
          have hfalse : (placeholder k).isPrefixOf
              (braceL :: (k' ++ braceR :: braceR :: tokText rest)) = false := by
            simp only [placeholder, List.isPrefixOf, beq_self_eq_true, Bool.true_and]
            exact isPrefixOf_bl_false _ _ _ hk'
          rw [hfalse] at this
          exact Bool.false_ne_true this)]
        have hsplit : k' ++ braceR :: braceR :: tokText rest =
            (k' ++ [braceR, braceR]) ++ tokText rest := by simp
        rw [hsplit]
        have hnobl : ∀ c ∈ k' ++ [braceR, braceR], ¬ c = braceL := by
          intro c hc
          rcases List.mem_append.mp hc with h | h
          · exact (braceFree_mem hk' h).1
          · intro hEq
            subst hEq
            simp at h
            exact absurd h (by decide)
        have hskip := replaceAll_append_bfreeL (braceL :: (k ++ [braceR, braceR])) rep
          (k' ++ [braceR, braceR]) (tokText rest) hnobl
        have ihr := ih hwf.2
        simp only [placeholder] at hskip ihr ⊢
        rw [hskip, ihr]
        simp [tokText, tokStr, replTok, hkk, placeholder]

theorem substTok_nil (t : Tok) : substTok [] t = t := by
  cases t <;> simp [substTok]

theorem substTok_cons_replTok (kv : Str × PyVal) (rest : Row) (t : Tok) :
    substTok rest (replTok kv.1 (renderCell kv.2) t) = substTok (kv :: rest) t := by
  cases t with
  | lit s => rfl
  | ph k =>
    by_cases hk : k = kv.1
    · subst hk
      simp [replTok, substTok, List.lookup]
    · simp [replTok, substTok, List.lookup, beq_eq_false_iff_ne.mpr hk]

theorem wfToks_map_replTok (k rep : Str) (hrep : braceFree rep = true) :
    ∀ ts : List Tok, wfToks ts = true → wfToks (ts.map (replTok k rep)) = true := by
  intro ts
  induction ts with
  | nil => intro _; rfl
  | cons t0 rest ih =>
    intro hts
    have hwf : wfTok t0 = true ∧ wfToks rest = true := by
      simpa [wfToks, List.all_cons] using hts
    have ihr := ih hwf.2
    have h0 : wfTok (replTok k rep t0) = true := by
      cases t0 with
      | lit s => simpa [replTok, wfTok] using hwf.1
      | ph k' =>
        by_cases hkk : k' == k
        · simpa [replTok, hkk, wfTok] using hrep
        · simpa [replTok, hkk, wfTok] using hwf.1
    simp only [List.map_cons, wfToks, List.all_cons, Bool.and_eq_true]
    exact ⟨h0, by simpa [wfToks] using ihr⟩

/-- The central substitution theorem: on well-formed run text, the
sequential per-column replacement of `fill_ppt` replaces exactly the
placeholders whose key is a column of the row, each by its rendered cell
value, and leaves everything else intact. -/
theorem fillRun_tokText (data : Row)
    (hd : ∀ kv ∈ data, braceFree kv.1 = true ∧ braceFree (renderCell kv.2) = true) :
    ∀ ts : List Tok, wfToks ts = true →
      fillRun data (tokText ts) = tokText (ts.map (substTok data)) := by
  intro ts hts
  rw [fillRun_eq_fold]
  induction data generalizing ts with
  | nil =>
    have : ts.map (substTok []) = ts := by
      have : substTok [] = id := funext substTok_nil
      rw [this, List.map_id]
    rw [this]
    rfl
  | cons kv rest ih =>
    have hkv := hd kv (by simp)
    simp only [List.foldl_cons]
    rw [replaceAll_tokText kv.1 (renderCell kv.2) hkv.1 ts hts]
    have hwf' : wfToks (ts.map (replTok kv.1 (renderCell kv.2))) = true :=
      wfToks_map_replTok _ _ hkv.2 ts hts
    rw [ih (fun kv' h' => hd kv' (by simp [h'])) _ hwf']
    rw [List.map_map]
    congr 1
    exact List.map_congr_left (fun t _ => substTok_cons_replTok kv rest t)

/-- One loop iteration, characterised when the template file is present. -/
theorem rowStep_eq (cfg : BatchCfg) (idx : Nat) (row : Row) (st : BatchState) (tmpl : Pres)
    (ht : List.lookup templateFile st.fs = some tmpl) :
    rowStep cfg idx row st =
      (if cfg.renderOk idx then
         if truthy ((List.lookup cfg.emailCol row).getD .pnone) then
           if cfg.sendOk idx then
             .ok { fs := (rowName idx row ++ ".pptx".data, fillPres row tmpl) :: st.fs
                   sent := st.sent + 1
                   results := st.results ++
                     [⟨idx, rowName idx row, tmpl, rowName idx row ++ ".pptx".data,
                       baseOut cfg ++ "/".data ++ rowName idx row,
                       renderImages (fillPres row tmpl)
                         (baseOut cfg ++ "/".data ++ rowName idx row),
                       some (send_email cfg.sender cfg.password
                         ((List.lookup cfg.emailCol row).getD .pnone)
                         (cfg.eventName ++ " Certificate".data)
                         ("Dear ".data ++ pyStr ((List.lookup ("NAME".data) row).getD .pnone) ++
                           ",\n\nPlease find your certificate.".data)
                         (renderImages (fillPres row tmpl)
                           (baseOut cfg ++ "/".data ++ rowName idx row))
                         ((List.lookup ("NAME".data) row).getD .pnone) cfg.eventName)⟩] }
           else .fail .deliveryError
             { fs := (rowName idx row ++ ".pptx".data, fillPres row tmpl) :: st.fs
               sent := st.sent
               results := st.results }
         else
           .ok { fs := (rowName idx row ++ ".pptx".data, fillPres row tmpl) :: st.fs
                 sent := st.sent
                 results := st.results ++
                   [⟨idx, rowName idx row, tmpl, rowName idx row ++ ".pptx".data,
                     baseOut cfg ++ "/".data ++ rowName idx row,
                     renderImages (fillPres row tmpl)
                       (baseOut cfg ++ "/".data ++ rowName idx row),
                     none⟩] }
       else .fail .renderError
         { fs := (rowName idx row ++ ".pptx".data, fillPres row tmpl) :: st.fs
           sent := st.sent
           results := st.results }) := by
  cases hC : cfg.renderOk idx <;>
    simp [rowStep, fill_ppt, ht, ppt_to_images, List.lookup, hC]

/-- `List.lookup` stays `isSome` when a binding is pushed. -/
theorem lookup_cons_isSome {a k : Str} {v : Pres} {l : List (Str × Pres)}
    (h : (List.lookup a l).isSome = true) :
    (List.lookup a ((k, v) :: l)).isSome = true := by
  by_cases hk : a == k <;> simp [List.lookup, hk, h]

/-- Pushing a binding for a different key does not change a lookup. -/
theorem lookup_cons_ne {a k : Str} {v : Pres} {l : List (Str × Pres)} (h : ¬ a = k) :
    List.lookup a ((k, v) :: l) = List.lookup a l := by
  simp [List.lookup, beq_eq_false_iff_ne.mpr h]

theorem templateFile_eq : templateFile = "template".data ++ ".pptx".data := by decide

/-- If a row's sanitized name differs from `template`, its deck path
differs from the template path. -/
theorem deckPath_ne_templateFile {name : Str} (h : ¬ name = "template".data) :
    ¬ name ++ ".pptx".data = templateFile := by
  rw [templateFile_eq]
  intro hEq
  exact h (List.append_cancel_right hEq)

/-- With the misnamed recipient-email column (no row has it), the batch
runs to completion, sends nothing, and appends one undispatched record
per row. -/
theorem runBatchGo_no_email (cfg : BatchCfg) (hR : ∀ i, cfg.renderOk i = true) :
    ∀ (rows : List Row) (idx : Nat) (st : BatchState),
      (∀ row ∈ rows, List.lookup cfg.emailCol row = none) →
      (List.lookup templateFile st.fs).isSome = true →
      ∃ st', runBatchGo cfg rows idx st = .completed st' ∧
        st'.sent = st.sent ∧
        st'.results.length = st.results.length + rows.length ∧
        ∀ r ∈ st'.results, r ∈ st.results ∨ r.dispatched = none := by
  intro rows
  induction rows with
  | nil =>
    intro idx st _ _
    exact ⟨st, rfl, rfl, by simp, fun r hr => Or.inl hr⟩
  | cons row rest ih =>
    intro idx st hcol htS
    obtain ⟨tmpl, ht⟩ := Option.isSome_iff_exists.mp htS
    have hrec : (List.lookup cfg.emailCol row).getD PyVal.pnone = .pnone := by
      rw [hcol row (by simp)]; rfl
    have hstep := rowStep_eq cfg idx row st tmpl ht
    rw [hR idx, if_pos rfl] at hstep
    rw [hrec] at hstep
    simp only [truthy, Bool.false_eq_true, if_false] at hstep
    set rec : RowRecord :=
      ⟨idx, rowName idx row, tmpl, rowName idx row ++ ".pptx".data,
        baseOut cfg ++ "/".data ++ rowName idx row,
        renderImages (fillPres row tmpl) (baseOut cfg ++ "/".data ++ rowName idx row),
        none⟩ with hrec2
    have hstep' : rowStep cfg idx row st =
        .ok { st with
              fs := (rowName idx row ++ ".pptx".data, fillPres row tmpl) :: st.fs
              results := st.results ++ [rec] } := hstep
    have hinv : (List.lookup templateFile
        ((rowName idx row ++ ".pptx".data, fillPres row tmpl) :: st.fs)).isSome = true :=
      lookup_cons_isSome htS
    obtain ⟨st', hgo, hsent, hlen, hmem⟩ :=
      ih (idx + 1)
        { st with
          fs := (rowName idx row ++ ".pptx".data, fillPres row tmpl) :: st.fs
          results := st.results ++ [rec] }
        (fun r hr => hcol r (by simp [hr])) hinv
    refine ⟨st', ?_, ?_, ?_, ?_⟩
    · simp only [runBatchGo, hstep']
      exact hgo
    · simpa using hsent
    · simp only [hlen]; simp; omega
    · intro r hr
      rcases hmem r hr with h | h
      · rcases List.mem_append.mp h with h' | h'
        · exact Or.inl h'
        · simp only [List.mem_singleton] at h'
          subst h'
          exact Or.inr rfl
      · exact Or.inr h

theorem projRecs_getElem (cfg : BatchCfg) :
    ∀ (rows : List Row) (idx k : Nat),
      (projRecs cfg idx rows)[k]? = (rows[k]?).map
        (fun row => (idx + k, rowName (idx + k) row, rowName (idx + k) row ++ ".pptx".data,
          baseOut cfg ++ "/".data ++ rowName (idx + k) row)) := by
  intro rows
  induction rows with
  | nil => intro idx k; simp [projRecs]
  | cons row rest ih =>
    intro idx k
    cases k with
    | zero => simp [projRecs]
    | succ k' =>
      simp only [projRecs, List.getElem?_cons_succ, ih (idx + 1) k']
      have : idx + 1 + k' = idx + (k' + 1) := by omega
      rw [this]

/-- When both external services succeed for every row, the batch runs to
completion and produces, in order, one record per roster row whose index,
name, deck path, and output directory are as computed by `projRecs`. -/
theorem runBatchGo_allOk (cfg : BatchCfg)
    (hR : ∀ i, cfg.renderOk i = true) (hS : ∀ i, cfg.sendOk i = true) :
    ∀ (rows : List Row) (idx : Nat) (st : BatchState),
      (List.lookup templateFile st.fs).isSome = true →
      ∃ st', runBatchGo cfg rows idx st = .completed st' ∧
        st'.results.map projRec = st.results.map projRec ++ projRecs cfg idx rows := by
  intro rows
  induction rows with
  | nil => intro idx st _; exact ⟨st, rfl, by simp [projRecs]⟩
  | cons row rest ih =>
    intro idx st htS
    obtain ⟨tmpl, ht⟩ := Option.isSome_iff_exists.mp htS
    have hstep := rowStep_eq cfg idx row st tmpl ht
    rw [if_pos (hR idx)] at hstep
    cases hOk : rowStep cfg idx row st with
    | fail e s2 =>
      rw [hstep] at hOk
      split at hOk
      · split at hOk
        · simp at hOk
        · next hcond => exact absurd (hS idx) hcond
      · simp at hOk
    | ok s2 =>
      have hshape : s2.fs = (rowName idx row ++ ".pptx".data, fillPres row tmpl) :: st.fs ∧
          s2.results.map projRec = st.results.map projRec ++
            [(idx, rowName idx row, rowName idx row ++ ".pptx".data,
              baseOut cfg ++ "/".data ++ rowName idx row)] := by
        rw [hstep] at hOk
        split at hOk
        · split at hOk
          · injection hOk with h
            subst h
            exact ⟨rfl, by simp [projRec]⟩
          · next hcond => exact absurd (hS idx) hcond
        · injection hOk with h
          subst h
          exact ⟨rfl, by simp [projRec]⟩
      obtain ⟨st', hgo, hproj⟩ := ih (idx + 1) s2
        (by rw [hshape.1]; exact lookup_cons_isSome htS)
      refine ⟨st', ?_, ?_⟩
      · simp only [runBatchGo, hOk]; exact hgo
      · rw [hproj, hshape.2]
        simp [projRecs]

/-- As long as no processed row is named `template`, the template file's
binding is never shadowed, so every recorded fill read the original
template. -/
theorem runBatchGo_template_stable (cfg : BatchCfg) :
    ∀ (rows : List Row) (idx : Nat) (st : BatchState) (tmpl : Pres),
      (∀ j row, rows[j]? = some row → ¬ rowName (idx + j) row = "template".data) →
      List.lookup templateFile st.fs = some tmpl →
      (∀ r ∈ st.results, r.fillInput = tmpl) →
      ∀ r ∈ resultsOf (runBatchGo cfg rows idx st), r.fillInput = tmpl := by
  intro rows
  induction rows with
  | nil => intro idx st tmpl _ _ hres r hr; exact hres r hr
  | cons row rest ih =>
    intro idx st tmpl hname ht hres
    have hn0 : ¬ rowName idx row = "template".data := by
      have := hname 0 row (by simp)
      simpa using this
    have hpath : ¬ rowName idx row ++ ".pptx".data = templateFile :=
      deckPath_ne_templateFile hn0
    have ht' : List.lookup templateFile
        ((rowName idx row ++ ".pptx".data, fillPres row tmpl) :: st.fs) = some tmpl := by
      rw [lookup_cons_ne (fun h => hpath h.symm)]
      exact ht
    have hstep := rowStep_eq cfg idx row st tmpl ht
    have hname' : ∀ j row', rest[j]? = some row' →
        ¬ rowName (idx + 1 + j) row' = "template".data := by
      intro j row' hj
      have := hname (j + 1) row' (by simpa using hj)
      have harith : idx + (j + 1) = idx + 1 + j := by omega
      rw [harith] at this
      exact this
    cases hC : cfg.renderOk idx with
    | false =>
      rw [hC] at hstep
      simp only [Bool.false_eq_true, if_false] at hstep
      simp only [runBatchGo, hstep, resultsOf]
      exact hres
    | true =>
      rw [hC, if_pos rfl] at hstep
      by_cases hT : truthy ((List.lookup cfg.emailCol row).getD .pnone) = true
      · rw [if_pos hT] at hstep
        cases hSd : cfg.sendOk idx with
        | false =>
          rw [hSd] at hstep
          simp only [Bool.false_eq_true, if_false] at hstep
          simp only [runBatchGo, hstep, resultsOf]
          exact hres
        | true =>
          rw [hSd, if_pos rfl] at hstep
          simp only [runBatchGo, hstep]
          refine ih (idx + 1) _ tmpl hname' ht' ?_
          intro r hr
          rcases List.mem_append.mp hr with h' | h'
          · exact hres r h'
          · simp only [List.mem_singleton] at h'
            subst h'
            rfl
      · rw [if_neg hT] at hstep
        simp only [runBatchGo, hstep]
        refine ih (idx + 1) _ tmpl hname' ht' ?_
        intro r hr
        rcases List.mem_append.mp hr with h' | h'
        · exact hres r h'
        · simp only [List.mem_singleton] at h'
          subst h'
          rfl

theorem styleSkeleton_fillPres (data : Row) (p : Pres) :
    styleSkeleton (fillPres data p) = styleSkeleton p := by
  simp only [styleSkeleton, fillPres, List.map_map]
  apply List.map_congr_left
  intro sl _
  simp only [Function.comp]
  rw [List.map_map]
  apply List.map_congr_left
  intro sh _
  by_cases h : sh.hasTextFrame <;>
    simp [fillShape, h, List.map_map, Function.comp]

theorem runAt_fillPres (data : Row) (p : Pres) (i j kk l : Nat) (r : Run)
    (hr : runAt p i j kk l = some r)
    (hnc : ∀ kv ∈ data, containsSub (placeholder kv.1) r.text = false) :
    runAt (fillPres data p) i j kk l = some r := by
  simp only [runAt, fillPres] at hr ⊢
  rw [List.getElem?_map]
  cases hsl : p.slides[i]? with
  | none => rw [hsl] at hr; simp at hr
  | some sl =>
    rw [hsl] at hr
    simp only [Option.map_some', Option.some_bind] at hr ⊢
    rw [List.getElem?_map]
    cases hsh : sl.shapes[j]? with
    | none => rw [hsh] at hr; simp at hr
    | some sh =>
      rw [hsh] at hr
      simp only [Option.map_some', Option.some_bind] at hr ⊢
      by_cases hTF : sh.hasTextFrame
      · simp only [fillShape, hTF, if_pos]
        rw [List.getElem?_map]
        cases hpa : sh.paragraphs[kk]? with
        | none => rw [hpa] at hr; simp at hr
        | some pa =>
          rw [hpa] at hr
          simp only [Option.map_some', Option.some_bind] at hr ⊢
          rw [List.getElem?_map, hr]
          simp only [Option.map_some']
          have : fillRun data r.text = r.text := fillRun_id_of_not_contains data r.text hnc
          rw [this]
      · simp only [fillShape, hTF, if_neg, if_false]
        exact hr

/-- C1: partial-failure isolation.  The claim says a render failure at
row `k` leaves all other rows processed, records exactly one failure for
row `k`, and rows processed == N.  The loop has no try/except, so the
first render failure aborts the whole batch: at this failing input (a
2-row roster whose row 0 fails to render) the run aborts at row 0 with a
RenderError, no results for the other row, no failure recorded in any
per-row list, and zero rows processed out of 2. -/
theorem c1_render_failure_aborts :
    abortedInfo (runBatch c1Cfg c1Rows) = some (0, .renderError) ∧
    resultsOf (runBatch c1Cfg c1Rows) = [] ∧
    sentOf (runBatch c1Cfg c1Rows) = 0 ∧
    c1Rows.length = 2 := by decide

/-- C2: the claim says a row with an empty recipient-email value is not
dispatched, with 2 emails sent out of 3 rows.  `pandas` stores `NaN` for
an empty CSV cell and `NaN` is truthy in Python, so the guard
`if recipient:` passes and the code dispatches row 2 as well: the batch
ends with all 3 rows dispatched and `sent_count == 3`, not 2. -/
theorem c2_nan_email_dispatched :
    isCompleted (runBatch c2Cfg c2Rows) = true ∧
    sentOf (runBatch c2Cfg c2Rows) = 3 ∧
    (resultsOf (runBatch c2Cfg c2Rows)).length = 3 ∧
    ((resultsOf (runBatch c2Cfg c2Rows))[1]?).map (fun r => r.dispatched.isSome) =
      some true := by decide

/-- C3 counterexample: the claim (and spec 4.1) describe one scan that
replaces each placeholder by that key's value.  On a run `"[[A]]"` (with
braces) whose row maps A to the literal text `"[[B]]"` and B to `"x"`,
the spec's scan yields `"[[B]]"` but the code's sequential per-column
`str.replace` then rewrites the freshly inserted text with column B,
yielding `"x"`: the two disagree, so the claim as stated is false. -/
theorem c3_seq_vs_spec_cex :
    fillRun c3CexRow c3CexText = "x".data ∧
    specFillRun c3CexRow c3CexText = "\x7b\x7bB\x7d\x7d".data ∧
    fillRun c3CexRow c3CexText ≠ specFillRun c3CexRow c3CexText := by decide

/-- C3 (amended): provided no column name and no rendered value contains
a brace character and the run text is an interleaving of brace-free
literals and placeholders, `fill_ppt`'s per-run substitution replaces,
within the single run, every placeholder whose key is a column of the
row by that value's textual form (a missing/NaN value rendering as the
empty string), and leaves every other token unchanged. -/
theorem c3_substitution_amended (data : Row) (ts : List Tok)
    (hd : ∀ kv ∈ data, braceFree kv.1 = true ∧ braceFree (renderCell kv.2) = true)
    (hts : wfToks ts = true) :
    fillRun data (tokText ts) = tokText (ts.map (substTok data)) :=
  fillRun_tokText data hd ts hts

/-- C3 witness: the spec's scenario run, with the hypotheses discharged
concretely — the filled text is "Congrats Ada from Core". -/
theorem c3_substitution_amended_witness :
    tokText c3ScenToks = "Congrats \x7b\x7bNAME\x7d\x7d from \x7b\x7bTEAM\x7d\x7d".data ∧
    fillRun c3ScenRow (tokText c3ScenToks) = tokText (c3ScenToks.map (substTok c3ScenRow)) ∧
    tokText (c3ScenToks.map (substTok c3ScenRow)) = "Congrats Ada from Core".data :=
  ⟨by decide, c3_substitution_amended c3ScenRow c3ScenToks (by decide) (by decide), by decide⟩

/-- C4: run-structure invariant.  Substitution never changes the number,
ordering, or styling of runs (the style skeleton of the filled deck
equals the template's), and a run whose text contains no placeholder of
any row column is left entirely unchanged at its position. -/
theorem c4_run_structure (data : Row) (p : Pres) :
    styleSkeleton (fillPres data p) = styleSkeleton p ∧
    (∀ i j kk l r, runAt p i j kk l = some r →
      (∀ kv ∈ data, containsSub (placeholder kv.1) r.text = false) →
      runAt (fillPres data p) i j kk l = some r) :=
  ⟨styleSkeleton_fillPres data p, fun i j kk l r hr hnc => runAt_fillPres data p i j kk l r hr hnc⟩

/-- C4 witness: a concrete deck and row, hypotheses discharged by
evaluation. -/
theorem c4_run_structure_witness :
    styleSkeleton (fillPres c4wRow c4wPres) = styleSkeleton c4wPres ∧
    runAt (fillPres c4wRow c4wPres) 0 0 0 0 = some ⟨"Hello".data, 7⟩ :=
  ⟨(c4_run_structure c4wRow c4wPres).1,
   (c4_run_structure c4wRow c4wPres).2 0 0 0 0 ⟨"Hello".data, 7⟩ (by decide) (by decide)⟩

/-- C5: a placeholder split across two adjacent runs is not matched:
when no row column's placeholder occurs inside either run's own text,
both runs are left unchanged, so the split placeholder survives in the
filled deck's concatenated text. -/
theorem c5_split_placeholder (data : Row) (r1 r2 : Str)
    (h1 : ∀ kv ∈ data, containsSub (placeholder kv.1) r1 = false)
    (h2 : ∀ kv ∈ data, containsSub (placeholder kv.1) r2 = false) :
    fillRun data r1 = r1 ∧ fillRun data r2 = r2 ∧
    fillRun data r1 ++ fillRun data r2 = r1 ++ r2 := by
  have e1 := fillRun_id_of_not_contains data r1 h1
  have e2 := fillRun_id_of_not_contains data r2 h2
  exact ⟨e1, e2, by rw [e1, e2]⟩

/-- C5 witness: the runs "[[NA" and "ME]]" (with braces) around the split
NAME placeholder are untouched, and the unmatched placeholder is still
present in the concatenation. -/
theorem c5_split_placeholder_witness :
    fillRun c5Row c5R1 ++ fillRun c5Row c5R2 = c5R1 ++ c5R2 ∧
    containsSub (placeholder ("NAME".data)) (c5R1 ++ c5R2) = true :=
  ⟨(c5_split_placeholder c5Row c5R1 c5R2 (by decide) (by decide)).2.2, by decide⟩

/-- C6: when the configured recipient-email column is absent from every
roster row, every lookup yields `None` (falsy), so the batch completes
with zero emails sent, while still filling and rendering one record per
row (none of them dispatched). -/
theorem c6_misnamed_email_column (cfg : BatchCfg) (rows : List Row)
    (hcol : ∀ row ∈ rows, List.lookup cfg.emailCol row = none)
    (hR : ∀ i, cfg.renderOk i = true) :
    isCompleted (runBatch cfg rows) = true ∧
    sentOf (runBatch cfg rows) = 0 ∧
    (resultsOf (runBatch cfg rows)).length = rows.length ∧
    ∀ r ∈ resultsOf (runBatch cfg rows), r.dispatched = none := by
  obtain ⟨st', hgo, hsent, hlen, hmem⟩ := runBatchGo_no_email cfg hR rows 0 (initState cfg)
    hcol (by simp [initState, List.lookup])
  have hout : runBatch cfg rows = .completed st' := hgo
  refine ⟨by rw [hout]; rfl, ?_, ?_, ?_⟩
  · show sentOf (runBatch cfg rows) = 0
    rw [hout]
    show st'.sent = 0
    rw [hsent]
    rfl
  · rw [hout]
    show st'.results.length = rows.length
    rw [hlen]
    simp [initState]
  · rw [hout]
    intro r hr
    rcases hmem r hr with h | h
    · simp [initState] at h
    · exact h

/-- C6 witness: the misnamed-column scenario (roster has `Mail`, the
orchestrator looks up `EMAIL`): completed, zero sent, 2 of 2 rendered. -/
theorem c6_misnamed_email_column_witness :
    isCompleted (runBatch c6wCfg c6wRows) = true ∧
    sentOf (runBatch c6wCfg c6wRows) = 0 ∧
    (resultsOf (runBatch c6wCfg c6wRows)).length = c6wRows.length := by
  have h := c6_misnamed_email_column c6wCfg c6wRows (by decide) (fun i => rfl)
  exact ⟨h.1, h.2.1, h.2.2.1⟩

/-- C7: determinism of substitution.  Two applications of `fill_ppt`'s
substitution to the same template/row pair, followed by a deterministic
document writer, produce byte-identical decks. -/
theorem c7_fill_deterministic (serialize : Pres → List Nat) (d₁ d₂ : Row) (p₁ p₂ : Pres)
    (hd : d₁ = d₂) (hp : p₁ = p₂) :
    serialize (fillPres d₁ p₁) = serialize (fillPres d₂ p₂) := by rw [hd, hp]

/-- C7 witness: a concrete serializer and template/row pair, the equal
inputs discharged by rfl. -/
theorem c7_fill_deterministic_witness :
    (fun p : Pres => [p.slides.length]) (fillPres c7wRow c7wPres) =
      (fun p : Pres => [p.slides.length]) (fillPres c7wRow c7wPres) :=
  c7_fill_deterministic (fun p => [p.slides.length]) c7wRow c7wRow c7wPres c7wPres rfl rfl

/-- C8 counterexample: with row 0 named `template`, the template that
row 1's fill reads is the filled deck of row 0, not the original
template — the claim's "template input to each Fill call is the original
uploaded template" is false at this input. -/
theorem c8_template_overwrite_cex :
    ((resultsOf (runBatch c8Cfg c8Rows))[1]?).map (fun r => r.fillInput) =
      some c8FilledTmpl ∧
    c8FilledTmpl ≠ c8Cfg.tmpl := by decide

/-- C8 (amended): provided no roster row's sanitized display name equals
`template` (the base name of the stored template file), every fill reads
the original uploaded template: filling a deck for row A does not alter
the template used for row B. -/
theorem c8_template_stable_amended (cfg : BatchCfg) (rows : List Row)
    (hname : ∀ p ∈ rows.enum, ¬ rowName p.1 p.2 = "template".data) :
    ∀ r ∈ resultsOf (runBatch cfg rows), r.fillInput = cfg.tmpl := by
  intro r hr
  refine runBatchGo_template_stable cfg rows 0 (initState cfg) cfg.tmpl ?_ ?_ ?_ r hr
  · intro j row hj
    have hm : (j, row) ∈ rows.enum := List.mk_mem_enum_iff_getElem?.mpr hj
    have := hname (j, row) hm
    simpa using this
  · simp [initState, List.lookup]
  · intro r' hr'
    exact absurd hr' (by simp [initState])

/-- C8 witness: a concrete batch with no row named `template`; its one
recorded fill read the original template. -/
theorem c8_template_stable_amended_witness :
    c8wRec.fillInput = c8wCfg.tmpl :=
  c8_template_stable_amended c8wCfg c8wRows (by decide) c8wRec (by decide)

/-- C9: `send_email` with an empty image list still composes the full
message (the HTML alternative keeps its `cid:` reference) and hands it
to the transport; it is exactly the message of the non-empty case with
the inline embed omitted — the empty-attachment case degrades silently
instead of failing the row. -/
theorem c9_empty_attachments (sender password : Str) (recipient : PyVal)
    (subject body : Str) (name : PyVal) (event : Str) (img : Str) (imgs : List Str) :
    (send_email sender password recipient subject body [] name event).inline = none ∧
    (send_email sender password recipient subject body [] name event).htmlHasCidRef = true ∧
    send_email sender password recipient subject body [] name event =
      { send_email sender password recipient subject body (img :: imgs) name event with
        inline := none } :=
  ⟨rfl, rfl, rfl⟩

/-- C10: a roster with no NAME column does not make the batch fail; the
row's record uses the fallback `user_<rowIndex>` (spaces replaced by
underscores) as the filled-deck file name and the per-recipient output
directory. -/
theorem c10_name_fallback (cfg : BatchCfg) (rows : List Row) (k : Nat) (row : Row)
    (hR : ∀ i, cfg.renderOk i = true) (hS : ∀ i, cfg.sendOk i = true)
    (hrow : rows[k]? = some row)
    (hname : List.lookup ("NAME".data) row = none) :
    isCompleted (runBatch cfg rows) = true ∧
    ((resultsOf (runBatch cfg rows))[k]?).map projRec =
      some (k, replaceAll [' '] ['_'] ("user_".data ++ (Nat.repr k).data),
        replaceAll [' '] ['_'] ("user_".data ++ (Nat.repr k).data) ++ ".pptx".data,
        baseOut cfg ++ "/".data ++ replaceAll [' '] ['_'] ("user_".data ++ (Nat.repr k).data)) := by
  obtain ⟨st', hgo, hproj⟩ := runBatchGo_allOk cfg hR hS rows 0 (initState cfg)
    (by simp [initState, List.lookup])
  have hout : runBatch cfg rows = .completed st' := hgo
  constructor
  · rw [hout]; rfl
  · rw [hout]
    show ((st'.results)[k]?).map projRec = _
    rw [← List.getElem?_map projRec st'.results k, hproj]
    have hinit : (initState cfg).results = [] := rfl
    rw [hinit]
    simp only [List.map_nil, List.nil_append]
    rw [projRecs_getElem cfg rows 0 k, hrow]
    simp only [Option.map_some']
    have h0k : (0 : Nat) + k = k := Nat.zero_add k
    rw [h0k]
    have hfall : rowName k row =
        replaceAll [' '] ['_'] ("user_".data ++ (Nat.repr k).data) := by
      simp [rowName, hname]
    rw [hfall]

/-- C10 witness: a one-row roster with no NAME key: the batch completes
and the row's record is named `user_0`. -/
theorem c10_name_fallback_witness :
    isCompleted (runBatch c10wCfg c10wRows) = true ∧
    ((resultsOf (runBatch c10wCfg c10wRows))[0]?).map projRec =
      some (0, replaceAll [' '] ['_'] ("user_".data ++ (Nat.repr 0).data),
        replaceAll [' '] ['_'] ("user_".data ++ (Nat.repr 0).data) ++ ".pptx".data,
        baseOut c10wCfg ++ "/".data ++ replaceAll [' '] ['_'] ("user_".data ++ (Nat.repr 0).data)) :=
  c10_name_fallback c10wCfg c10wRows 0 [("TEAM".data, .pstr "Core".data)]
    (fun i => rfl) (fun i => rfl) (by decide) (by decide)

end AutoCertify
